import Mathlib

/-!
# Verification of the recipe-generation app core (src/app.py)

A shallow embedding of the logical core of `src/app.py`: the prompt
builder (lines 243-251), the generation-call parameters (lines 255-263),
the output post-processing (lines 266-277) and the submit/error control
flow (lines 237-294).

Conventions of the embedding:
* Python strings are Lean `String`s, manipulated through their
  character lists (`String.data`) so that every operation is a plain
  structurally recursive function.  `str.strip()` is `pyStrip` (removes
  the same six ASCII whitespace characters Python's `strip` removes on
  ASCII text), `str.lower()` is `pyLower` via `Char.toLower` (identical
  to Python on ASCII, which is all the claims exercise), `len(s)` is
  `String.length` and the slice `s[n:]` is `pyDropChars` (both count in
  code points).
* `str.split(',')` is embedded by `pySplitComma`, mirroring Python's
  semantics exactly: empty tokens are kept, and the empty string splits
  to one empty token.
* `", ".join(xs)` is embedded by `joinCommaSpace`.
* The regex substitution `re.sub(r' (\d+\.)', r'<br><br>\1', s)` is
  embedded by `reflow`, a left-to-right scan that replaces each
  non-overlapping occurrence of space + digit-run + period, exactly as
  `re.sub` does (`\d+` is greedy, and since a shorter digit run would be
  followed by a digit rather than by `.`, a position matches iff the
  maximal digit run after the space is non-empty and followed by `.`).
* The external generation pipeline is opaque: the outcome of one call
  is a `GenOutcome` parameter (either a returned full text or a raised
  exception message), and the call's arguments are recorded in a
  `GenCall`.
-/

/-- The characters Python's `str.strip()` removes: space, `\t`, `\n`,
`\r`, `\x0b`, `\x0c`. -/
def pyIsSpace (c : Char) : Bool :=
  c = ' ' || c = '\t' || c = '\n' || c = '\r' || c = '\x0b' || c = '\x0c'

/-- Python `s.strip()` on the character list: drop leading and trailing
whitespace. -/
def pyStripChars (l : List Char) : List Char :=
  ((l.dropWhile pyIsSpace).reverse.dropWhile pyIsSpace).reverse

/-- Python `s.strip()` (app.py lines 243-244, 267). -/
def pyStrip (s : String) : String := String.mk (pyStripChars s.data)

/-- Python `s.lower()` (app.py lines 243-244); `Char.toLower` agrees
with Python's per-character lowercasing on ASCII. -/
def pyLower (s : String) : String := String.mk (s.data.map Char.toLower)

/-- The per-token cleaning `ing.strip().lower()` (app.py line 244). -/
def cleanTok (s : String) : String := pyLower (pyStrip s)

/-- Python `s.split(',')` on the character list: cut at every comma,
keeping empty tokens; the empty string yields one empty token. -/
def pySplitComma : List Char → List (List Char)
  | [] => [[]]
  | c :: t =>
    if c = ',' then [] :: pySplitComma t
    else
      match pySplitComma t with
      | [] => [[c]]
      | x :: xs => (c :: x) :: xs

/-- Python `", ".join(xs)` (app.py line 244). -/
def joinCommaSpace : List String → String
  | [] => ""
  | [s] => s
  | s :: rest => s ++ ", " ++ joinCommaSpace rest

/-- `title_clean = title.strip().lower()` (app.py line 243). -/
def title_clean (title : String) : String := pyLower (pyStrip title)

/-- `ingredients_clean = ", ".join([ing.strip().lower() for ing in
ingredients_raw.split(',')])` (app.py line 244). -/
def ingredients_clean (ingredients_raw : String) : String :=
  joinCommaSpace ((pySplitComma ingredients_raw.data).map
    (fun t => cleanTok (String.mk t)))

/-- The prompt template (app.py lines 247-251). -/
def promptOf (title ingredients_raw : String) : String :=
  "TITLE: " ++ title_clean title ++ "\n" ++
  "INGREDIENTS: " ++ ingredients_clean ingredients_raw ++ "\n" ++
  "RECIPE:"

/-- Does the first occurrence of `pat` in `l` start here or later?
Python's substring test `pat in s` (app.py line 270). -/
def occursIn (pat : List Char) : List Char → Bool
  | [] => pat.isEmpty
  | c :: t => pat.isPrefixOf (c :: t) || occursIn pat t

/-- The text before the first occurrence of `pat` (the whole list when
`pat` does not occur): Python's `s.split(pat)[0]` (app.py line 271). -/
def beforeFirst (pat : List Char) : List Char → List Char
  | [] => []
  | c :: t => if pat.isPrefixOf (c :: t) then [] else c :: beforeFirst pat t

/-- Post-processing of the generated text (app.py lines 266-271):
`recipe_part = full_text[len(prompt):].strip()`, then
`if tokenizer.eos_token in recipe_part: recipe_part =
recipe_part.split(tokenizer.eos_token)[0]`. -/
def recipe_part (eos_token promptText full_text : String) : String :=
  let rp := pyStripChars (full_text.data.drop promptText.length)
  if occursIn eos_token.data rp then String.mk (beforeFirst eos_token.data rp)
  else String.mk rp

/-- The replacement text `<br><br>` of the substitution at app.py
line 275. -/
def brbr : List Char := ['<', 'b', 'r', '>', '<', 'b', 'r', '>']

/-- Does a match of the regex `' (\d+\.)'` start at `c :: t`?  Since
`\d+` is greedy and a shorter digit run would be followed by a digit
rather than by `.`, a match starts here iff `c` is a space and the
maximal digit run opening `t` is non-empty and followed by `.`.
(`Char.isDigit` is Python's `\d` on ASCII text, which is all the
claims exercise.) -/
def stepHere (c : Char) (t : List Char) : Bool :=
  c == ' ' && !(t.takeWhile Char.isDigit).isEmpty &&
    ((t.dropWhile Char.isDigit).head? == some '.')

/-- `re.sub(r' (\d+\.)', r'<br><br>\1', s)` (app.py line 275): scan
left to right; where a match starts, the space is replaced by
`<br><br>` and the digits and period are kept.  A match span after its
leading space holds only digits and a period, so no match can start
inside another match's span; hence continuing the scan on the
immediate tail (which copies the digits and the period unchanged) is
exactly `re.sub`'s non-overlapping leftmost replacement. -/
def reflow : List Char → List Char
  | [] => []
  | c :: t => if stepHere c t then brbr ++ reflow t else c :: reflow t

/-- Does the regex `' (\d+\.)'` match anywhere in `l`? -/
def hasStep : List Char → Bool
  | [] => false
  | c :: t => stepHere c t || hasStep t

/-- `formatted_recipe_html` before the `<p>` wrap (app.py line 275):
`re.sub(r' (\d+\.)', r'<br><br>\1', recipe_part).strip()`. -/
def formatted_recipe (recipePart : String) : String :=
  String.mk (pyStripChars (reflow recipePart.data))

/-- `formatted_recipe_html = f"<p>{...}</p>"` (app.py line 277). -/
def formatted_recipe_html (recipePart : String) : String :=
  "<p>" ++ formatted_recipe recipePart ++ "</p>"

example : title_clean " Spicy Chicken Pasta " = "spicy chicken pasta" := by decide
example : ingredients_clean "Chicken Breast, PASTA , cayenne pepper" =
    "chicken breast, pasta, cayenne pepper" := by decide
example : promptOf " Spicy Chicken Pasta " "Chicken Breast, PASTA , cayenne pepper" =
    "TITLE: spicy chicken pasta\nINGREDIENTS: chicken breast, pasta, cayenne pepper\nRECIPE:" := by
  decide
example : ingredients_clean "a,,b" = "a, , b" := by decide
example : ingredients_clean "a,b," = "a, b, " := by decide

example : recipe_part "<|endoftext|>" "P" "PServe hot.<|endoftext|>garbage" = "Serve hot." := by
  decide
example : recipe_part "<|endoftext|>" "PP" "PP  Serve hot.  " = "Serve hot." := by decide
example : formatted_recipe " 1. Boil water. 2. Add pasta." =
    "<br><br>1. Boil water.<br><br>2. Add pasta." := by decide
example : formatted_recipe "Preheat to 350. Use 12.5 grams." =
    "Preheat to<br><br>350. Use<br><br>12.5 grams." := by decide
example : formatted_recipe " 1. Mix. " = "<br><br>1. Mix." := by decide
example : reflow (reflow " 1. a 2. b 12.5".data) = reflow " 1. a 2. b 12.5".data := by decide

/-- The tokenizer as the generation core uses it: the end-of-sequence
token string (`tokenizer.eos_token`, app.py line 270) and its id
(`tokenizer.eos_token_id`, app.py lines 261-262). -/
structure Tokenizer where
  eos_token : String
  eos_token_id : Nat
deriving DecidableEq

/-- One form submission: the two text fields and the two sliders
(app.py lines 205-223).  The sliders keep `temp` in [0.2, 1.5] and
`max_tokens` in [50, 250], which the generation logic never checks. -/
structure Submission where
  title : String
  ingredients_raw : String
  temp : Rat
  max_tokens : Nat
deriving DecidableEq

/-- The arguments of one call to the generation pipeline (app.py lines
255-263), in source order. -/
structure GenCall where
  promptText : String
  max_new_tokens : Nat
  no_repeat_ngram_size : Nat
  temperature : Rat
  top_k : Nat
  eos_token_id : Nat
  pad_token_id : Nat
deriving DecidableEq

/-- The outcome of the opaque external generation call: either the
returned `generated_output[0]['generated_text']` or a raised
exception's message (the `except Exception as e` at line 288). -/
inductive GenOutcome where
  | ok (full_text : String)
  | raises (msg : String)
deriving DecidableEq

/-- What the interface shows after one script run: nothing, an
`st.error` message, or the recipe box HTML. -/
inductive Display where
  | idle
  | error (msg : String)
  | recipe (html : String)
deriving DecidableEq

/-- Process-wide state of the app: whether the model download step
succeeded (`model_ready`, line 147) and the memoized result of
`load_model()` (lines 150-185) — `none` when loading failed or never
ran, `some tok` for the loaded pipeline with its tokenizer (the
pipeline itself is opaque; the generation logic only reads the
tokenizer).  The generation logic never writes either field. -/
structure AppState where
  model_ready : Bool
  loaded : Option Tokenizer
deriving DecidableEq

/-- The result of one script run: what is displayed, the state
afterwards, and the generation calls performed (in order). -/
structure StepResult where
  display : Display
  state : AppState
  calls : List GenCall
deriving DecidableEq

/-- The validation message of app.py line 239. -/
def errValidation : String := "Please provide both a title and ingredients."

/-- The model-load failure message of app.py line 292. -/
def errLoadFailed : String := "Model is ready but failed to load. Please check the app logs."

/-- The download failure message of app.py line 294. -/
def errDownloadFailed : String :=
  "Model download failed. The app cannot function. Please check your Kaggle API secrets and dataset path."

/-- The generation-error message of app.py line 289. -/
def errGeneration (msg : String) : String :=
  "An error occurred during generation: " ++ msg

/-- One script run of the generation logic (app.py lines 237-294).
`if submit_button and generator:` — Python's truthiness on the form
fields means `not title` is `title == ""`; whitespace passes.  In the
valid branch the prompt is built, the pipeline is called once with the
parameters of lines 255-263, and the output is post-processed (lines
266-277) unless the call raised, in which case the message of line 289
is shown.  When the generator is missing, the `elif` branches at lines
291-294 report a fatal message whether or not submit was pressed. -/
def handleRequest (st : AppState) (submit_button : Bool) (sub : Submission)
    (outcome : GenOutcome) : StepResult :=
  match st.loaded with
  | some tok =>
    if submit_button then
      if sub.title = "" ∨ sub.ingredients_raw = "" then
        ⟨Display.error errValidation, st, []⟩
      else
        let p := promptOf sub.title sub.ingredients_raw
        let call : GenCall :=
          ⟨p, sub.max_tokens, 2, sub.temp, 50, tok.eos_token_id, tok.eos_token_id⟩
        match outcome with
        | GenOutcome.raises msg => ⟨Display.error (errGeneration msg), st, [call]⟩
        | GenOutcome.ok full_text =>
          ⟨Display.recipe (formatted_recipe_html (recipe_part tok.eos_token p full_text)),
            st, [call]⟩
    else ⟨Display.idle, st, []⟩
  | none =>
    if st.model_ready then ⟨Display.error errLoadFailed, st, []⟩
    else ⟨Display.error errDownloadFailed, st, []⟩

/-- A sequence of submissions processed one after the other, each
against the state the previous one left behind. -/
def runAll (st : AppState) : List (Submission × GenOutcome) → List StepResult
  | [] => []
  | (sub, o) :: rest =>
    let r := handleRequest st true sub o
    r :: runAll r.state rest

/-- A concrete loaded tokenizer for witnesses: GPT-2's end-of-sequence
token and id. -/
def tokEx : Tokenizer := ⟨"<|endoftext|>", 50256⟩

/-- A concrete healthy app state for witnesses. -/
def stEx : AppState := ⟨true, some tokEx⟩

theorem joinCommaSpace_cons_cons (s y : String) (t : List String) :
    joinCommaSpace (s :: y :: t) = s ++ ", " ++ joinCommaSpace (y :: t) := rfl

theorem joinCommaSpace_append_cons (xs : List String) (y : String) (ys : List String)
    (h : xs ≠ []) :
    joinCommaSpace (xs ++ y :: ys) =
      joinCommaSpace xs ++ ", " ++ joinCommaSpace (y :: ys) := by
  induction xs with
  | nil => exact absurd rfl h
  | cons a t ih =>
    cases t with
    | nil => simp [joinCommaSpace]
    | cons b t2 =>
      have h2 := ih (by simp)
      simp only [List.cons_append, joinCommaSpace_cons_cons] at h2 ⊢
      rw [h2]
      simp [String.append_assoc]

/-- C10: the prompt builder does not filter out empty ingredient
tokens: consecutive or dangling commas in the raw ingredients yield
empty tokens that are kept in the rejoined list, so the INGREDIENTS
line contains consecutive or dangling `", "` separators; the mapping
stage keeps every token (same length), and joining a token list with
an empty token in the middle or at the end produces `", , "`-style or
trailing `", "` separators. -/
theorem c10_empty_tokens_kept :
    ingredients_clean "a,,b" = "a, , b" ∧
    ingredients_clean "a,b," = "a, b, " ∧
    (∀ ts : List String, (ts.map cleanTok).length = ts.length) ∧
    (∀ xs ys : List String, xs ≠ [] → ys ≠ [] →
      joinCommaSpace (xs ++ "" :: ys) =
        joinCommaSpace xs ++ ", " ++ ", " ++ joinCommaSpace ys) ∧
    (∀ xs : List String, xs ≠ [] →
      joinCommaSpace (xs ++ [""]) = joinCommaSpace xs ++ ", ") := by
  refine ⟨by decide, by decide, fun ts => by simp, ?_, ?_⟩
  · intro xs ys hxs hys
    cases ys with
    | nil => exact absurd rfl hys
    | cons y t =>
      rw [joinCommaSpace_append_cons xs "" (y :: t) hxs, joinCommaSpace_cons_cons]
      simp only [String.append_assoc, String.empty_append]
  · intro xs hxs
    rw [joinCommaSpace_append_cons xs "" [] hxs]
    simp [joinCommaSpace, String.append_empty]

/-- C10 witness: the general no-filtering conjuncts instantiated at a
concrete token list. -/
theorem c10_empty_tokens_kept_witness :
    joinCommaSpace (["a"] ++ "" :: ["b"]) =
      joinCommaSpace ["a"] ++ ", " ++ ", " ++ joinCommaSpace ["b"] :=
  c10_empty_tokens_kept.2.2.2.1 ["a"] ["b"] (by decide) (by decide)

/-- C1: for every non-empty title and non-empty ingredients string, a
valid submission performs exactly one generation call whose prompt is
exactly `TITLE: ` + the whole title trimmed and lower-cased, newline,
`INGREDIENTS: ` + the comma-split ingredient tokens each individually
trimmed and lower-cased and rejoined with `", "`, newline, `RECIPE:` —
with no other normalization. -/
theorem c1_prompt_template (st : AppState) (tok : Tokenizer) (sub : Submission)
    (o : GenOutcome) (hld : st.loaded = some tok) (ht : sub.title ≠ "")
    (hi : sub.ingredients_raw ≠ "") :
    ∃ call, (handleRequest st true sub o).calls = [call] ∧
      call.promptText =
        "TITLE: " ++ pyLower (pyStrip sub.title) ++ "\n" ++
        "INGREDIENTS: " ++
          joinCommaSpace ((pySplitComma sub.ingredients_raw.data).map
            (fun t => pyLower (pyStrip (String.mk t)))) ++ "\n" ++
        "RECIPE:" := by
  cases o <;>
    simp [handleRequest, hld, ht, hi, promptOf, title_clean, ingredients_clean, cleanTok]

/-- C1 witness: the spec's worked example, at a concrete healthy state. -/
theorem c1_prompt_template_witness :
    ∃ call,
      (handleRequest stEx true
        ⟨" Spicy Chicken Pasta ", "Chicken Breast, PASTA , cayenne pepper", 7/10, 150⟩
        (GenOutcome.ok "")).calls = [call] ∧
      call.promptText =
        "TITLE: spicy chicken pasta\nINGREDIENTS: chicken breast, pasta, cayenne pepper\nRECIPE:" := by
  obtain ⟨c, hc, hp⟩ := c1_prompt_template stEx tokEx
    ⟨" Spicy Chicken Pasta ", "Chicken Breast, PASTA , cayenne pepper", 7/10, 150⟩
    (GenOutcome.ok "") rfl (by decide) (by decide)
  exact ⟨c, hc, hp.trans (by decide)⟩

/-- C2 counterexample: a whitespace-only title is truthy in Python, so
`if not title or not ingredients_raw:` does not fire — the prompt is
built and a generation call occurs, and the validation message is not
shown, contrary to the claim's "or consists only of whitespace". -/
theorem c2_counterexample :
    (handleRequest stEx true ⟨" ", "x", 7/10, 150⟩ (GenOutcome.ok "")).calls ≠ [] ∧
    (handleRequest stEx true ⟨" ", "x", 7/10, 150⟩ (GenOutcome.ok "")).display ≠
      Display.error errValidation := by decide

/-- C2 (amended): with a loaded generator, the validation failure
message is shown and no generation call occurs exactly when the title
or the ingredients field is the empty string; whitespace-only fields
pass the check and generation proceeds. -/
theorem c2_validation_empty_only (st : AppState) (tok : Tokenizer) (sub : Submission)
    (o : GenOutcome) (hld : st.loaded = some tok) :
    ((handleRequest st true sub o).display = Display.error errValidation ∧
      (handleRequest st true sub o).calls = []) ↔
      (sub.title = "" ∨ sub.ingredients_raw = "") := by
  constructor
  · intro h
    by_contra hc
    push_neg at hc
    obtain ⟨ht, hi⟩ := hc
    cases o <;> simp [handleRequest, hld, ht, hi] at h
  · intro h
    simp [handleRequest, hld, h]

/-- C2 witness: the amended equivalence at the empty title. -/
theorem c2_validation_empty_only_witness :
    (handleRequest stEx true ⟨"", "x", 7/10, 150⟩ (GenOutcome.ok "")).display =
      Display.error errValidation ∧
    (handleRequest stEx true ⟨"", "x", 7/10, 150⟩ (GenOutcome.ok "")).calls = [] :=
  (c2_validation_empty_only stEx tokEx ⟨"", "x", 7/10, 150⟩ (GenOutcome.ok "") rfl).mpr
    (Or.inl rfl)

/-- C6: every valid submission calls the generation pipeline exactly
once, with the user-selected temperature and maximum new token count
passed through unmodified (any values, the slider bounds 0.2/1.5 and
50/250 included — no validation touches them), a fixed top-k of 50, a
no-repeat-n-gram size of 2, and end-of-sequence and padding token ids
both equal to the model's end-of-sequence token id. -/
theorem c6_generation_parameters (st : AppState) (tok : Tokenizer) (sub : Submission)
    (o : GenOutcome) (hld : st.loaded = some tok) (ht : sub.title ≠ "")
    (hi : sub.ingredients_raw ≠ "") :
    (handleRequest st true sub o).calls =
      [⟨promptOf sub.title sub.ingredients_raw, sub.max_tokens, 2, sub.temp, 50,
        tok.eos_token_id, tok.eos_token_id⟩] := by
  cases o <;> simp [handleRequest, hld, ht, hi]

/-- C6 witness: both slider bounds pass through unmodified and trigger
no validation error. -/
theorem c6_generation_parameters_witness :
    (handleRequest stEx true ⟨"Spicy Chicken Pasta", "pasta", 1/5, 50⟩
        (GenOutcome.ok "")).calls =
      [⟨promptOf "Spicy Chicken Pasta" "pasta", 50, 2, 1/5, 50, 50256, 50256⟩] ∧
    (handleRequest stEx true ⟨"Spicy Chicken Pasta", "pasta", 3/2, 250⟩
        (GenOutcome.ok "")).calls =
      [⟨promptOf "Spicy Chicken Pasta" "pasta", 250, 2, 3/2, 50, 50256, 50256⟩] :=
  ⟨c6_generation_parameters stEx tokEx ⟨"Spicy Chicken Pasta", "pasta", 1/5, 50⟩
      (GenOutcome.ok "") rfl (by decide) (by decide),
   c6_generation_parameters stEx tokEx ⟨"Spicy Chicken Pasta", "pasta", 3/2, 250⟩
      (GenOutcome.ok "") rfl (by decide) (by decide)⟩

/-- C7: an exception raised by the generation call is caught and shown
as the per-request error message of line 289; exactly one call was
made (no retry), the process state is unchanged, and a subsequent
submission behaves exactly as it would from the idle state. -/
theorem c7_exception_caught (st : AppState) (tok : Tokenizer) (sub : Submission)
    (msg : String) (hld : st.loaded = some tok) (ht : sub.title ≠ "")
    (hi : sub.ingredients_raw ≠ "") :
    (handleRequest st true sub (GenOutcome.raises msg)).display =
      Display.error (errGeneration msg) ∧
    (handleRequest st true sub (GenOutcome.raises msg)).state = st ∧
    (handleRequest st true sub (GenOutcome.raises msg)).calls.length = 1 ∧
    (∀ sub2 o2, handleRequest (handleRequest st true sub (GenOutcome.raises msg)).state
        true sub2 o2 = handleRequest st true sub2 o2) := by
  simp [handleRequest, hld, ht, hi]

/-- C7 witness: a concrete raised exception at a healthy state. -/
theorem c7_exception_caught_witness :
    (handleRequest stEx true ⟨"t", "i", 7/10, 150⟩ (GenOutcome.raises "boom")).display =
      Display.error (errGeneration "boom") ∧
    (handleRequest stEx true ⟨"t", "i", 7/10, 150⟩ (GenOutcome.raises "boom")).state = stEx ∧
    (handleRequest stEx true ⟨"t", "i", 7/10, 150⟩ (GenOutcome.raises "boom")).calls.length = 1 := by
  have h := c7_exception_caught stEx tokEx ⟨"t", "i", 7/10, 150⟩ "boom" rfl
    (by decide) (by decide)
  exact ⟨h.1, h.2.1, h.2.2.1⟩

/-- C9: the prompt sent to the generation call is a function of the
title and ingredients fields only — two submissions agreeing on those
two fields, whatever their temperature, token limit or outcome, give
generation calls with identical prompt strings. -/
theorem c9_prompt_pure (st : AppState) (sub1 sub2 : Submission) (o1 o2 : GenOutcome)
    (ht : sub1.title = sub2.title) (hi : sub1.ingredients_raw = sub2.ingredients_raw) :
    ((handleRequest st true sub1 o1).calls).map GenCall.promptText =
      ((handleRequest st true sub2 o2).calls).map GenCall.promptText := by
  cases hld : st.loaded with
  | none => cases hmr : st.model_ready <;> simp [handleRequest, hld, hmr]
  | some tok =>
    by_cases hv : sub1.title = "" ∨ sub1.ingredients_raw = ""
    · have hv2 : sub2.title = "" ∨ sub2.ingredients_raw = "" := by rwa [ht, hi] at hv
      cases o1 <;> cases o2 <;> simp [handleRequest, hld, hv, hv2]
    · have hv2 : ¬(sub2.title = "" ∨ sub2.ingredients_raw = "") := by rwa [ht, hi] at hv
      push_neg at hv hv2
      cases o1 <;> cases o2 <;>
        simp [handleRequest, hld, hv.1, hv.2, hv2.1, hv2.2, ht, hi]

/-- C9 witness: same text fields, different temperature and token
limit and outcome — identical prompt. -/
theorem c9_prompt_pure_witness :
    ((handleRequest stEx true ⟨"T", "a,b", 1/5, 50⟩ (GenOutcome.ok "")).calls).map
        GenCall.promptText =
      ((handleRequest stEx true ⟨"T", "a,b", 3/2, 250⟩ (GenOutcome.raises "e")).calls).map
        GenCall.promptText :=
  c9_prompt_pure stEx ⟨"T", "a,b", 1/5, 50⟩ ⟨"T", "a,b", 3/2, 250⟩
    (GenOutcome.ok "") (GenOutcome.raises "e") rfl rfl

/-- C8: when model loading produced no generator (`loaded = none` with
the download step succeeded), generation is disabled for the rest of
the process: over any sequence of submissions, no generation call is
ever made and every run shows the same fatal load-failure message. -/
theorem c8_generation_disabled (st : AppState) (reqs : List (Submission × GenOutcome))
    (hld : st.loaded = none) (hmr : st.model_ready = true) :
    ∀ r ∈ runAll st reqs, r.calls = [] ∧ r.display = Display.error errLoadFailed := by
  induction reqs generalizing st with
  | nil => simp [runAll]
  | cons a rest ih =>
    obtain ⟨sub, o⟩ := a
    have hstep : handleRequest st true sub o = ⟨Display.error errLoadFailed, st, []⟩ := by
      simp [handleRequest, hld, hmr]
    intro r hr
    simp only [runAll, hstep, List.mem_cons] at hr
    cases hr with
    | inl h => rw [h]; exact ⟨rfl, rfl⟩
    | inr h => exact ih st hld hmr r h

/-- C8 witness: two concrete submissions against a failed load, both
reporting the fatal message with no generation call. -/
theorem c8_generation_disabled_witness :
    ((runAll ⟨true, none⟩ [(⟨"t", "i", 7/10, 150⟩, GenOutcome.ok "x")]).headD
        ⟨Display.idle, ⟨true, none⟩, []⟩).calls = [] ∧
    ((runAll ⟨true, none⟩ [(⟨"t", "i", 7/10, 150⟩, GenOutcome.ok "x")]).headD
        ⟨Display.idle, ⟨true, none⟩, []⟩).display = Display.error errLoadFailed :=
  c8_generation_disabled ⟨true, none⟩ [(⟨"t", "i", 7/10, 150⟩, GenOutcome.ok "x")] rfl rfl
    _ (by decide)

theorem isPrefixOf_eq_append (u l : List Char) (h : u.isPrefixOf l = true) :
    ∃ v, l = u ++ v := by
  induction u generalizing l with
  | nil => exact ⟨l, rfl⟩
  | cons a u2 ih =>
    cases l with
    | nil => simp [List.isPrefixOf] at h
    | cons b t =>
      simp only [List.isPrefixOf, Bool.and_eq_true, beq_iff_eq] at h
      obtain ⟨v, hv⟩ := ih t h.2
      exact ⟨v, by rw [h.1, hv]; rfl⟩

theorem isPrefixOf_append_self (u v : List Char) : u.isPrefixOf (u ++ v) = true := by
  induction u with
  | nil => simp [List.isPrefixOf]
  | cons a u2 ih => simp [List.isPrefixOf, ih]

theorem beforeFirst_cons (pat : List Char) (c : Char) (t : List Char) :
    beforeFirst pat (c :: t) =
      if pat.isPrefixOf (c :: t) = true then [] else c :: beforeFirst pat t := rfl

/-- Where `pat` occurs, the text splits as the part before the first
occurrence, then `pat`, then a remainder. -/
theorem beforeFirst_decomp (pat l : List Char) (h : occursIn pat l = true) :
    ∃ b, l = beforeFirst pat l ++ pat ++ b := by
  induction l with
  | nil =>
    simp only [occursIn, List.isEmpty_iff] at h
    exact ⟨[], by simp [beforeFirst, h]⟩
  | cons c t ih =>
    by_cases hp : pat.isPrefixOf (c :: t) = true
    · obtain ⟨v, hv⟩ := isPrefixOf_eq_append pat (c :: t) hp
      refine ⟨v, ?_⟩
      rw [beforeFirst_cons, if_pos hp]
      simpa using hv
    · simp only [occursIn, Bool.or_eq_true] at h
      obtain ⟨b, hb⟩ := ih (h.resolve_left hp)
      refine ⟨b, ?_⟩
      rw [beforeFirst_cons, if_neg hp]
      simp only [List.cons_append, List.append_assoc] at hb ⊢
      rw [← hb]

/-- `beforeFirst` cuts at the FIRST occurrence: it is no longer than
the part before any occurrence. -/
theorem beforeFirst_minimal (pat : List Char) (a b l : List Char)
    (h : l = a ++ pat ++ b) : (beforeFirst pat l).length ≤ a.length := by
  induction a generalizing l with
  | nil =>
    have hp : pat.isPrefixOf l = true := by
      rw [h]; simp only [List.nil_append]; exact isPrefixOf_append_self pat b
    cases l with
    | nil => simp [beforeFirst]
    | cons c t => rw [beforeFirst_cons, if_pos hp]
  | cons x a2 ih =>
    subst h
    simp only [List.cons_append]
    rw [beforeFirst_cons]
    by_cases hp : pat.isPrefixOf (x :: (a2 ++ pat ++ b)) = true
    · rw [if_pos (by simpa using hp)]; simp
    · rw [if_neg (by simpa using hp)]
      simp only [List.length_cons]
      have := ih (a2 ++ pat ++ b) rfl
      simpa using Nat.succ_le_succ this

/-- C3: post-processing takes the substring of the full text strictly
after the prompt's length, trims it, and — when the end-of-sequence
marker occurs in the remainder — truncates at the FIRST occurrence,
dropping the marker and everything after it; with no occurrence the
trimmed remainder is kept whole. -/
theorem c3_eos_truncation (eos p full : String) (_hne : eos.data ≠ []) :
    (occursIn eos.data (pyStripChars (full.data.drop p.length)) = false →
      recipe_part eos p full = String.mk (pyStripChars (full.data.drop p.length))) ∧
    (occursIn eos.data (pyStripChars (full.data.drop p.length)) = true →
      (∃ b, pyStripChars (full.data.drop p.length) =
          (recipe_part eos p full).data ++ eos.data ++ b) ∧
      (∀ a b, pyStripChars (full.data.drop p.length) = a ++ eos.data ++ b →
        (recipe_part eos p full).data.length ≤ a.length)) := by
  constructor
  · intro h
    simp [recipe_part, h]
  · intro h
    refine ⟨?_, ?_⟩
    · obtain ⟨b, hb⟩ := beforeFirst_decomp eos.data (pyStripChars (full.data.drop p.length)) h
      exact ⟨b, by simpa [recipe_part, h] using hb⟩
    · intro a b hab
      have := beforeFirst_minimal eos.data a b (pyStripChars (full.data.drop p.length)) hab
      simpa [recipe_part, h] using this

/-- C3 witness: the spec's example — the continuation
`Serve hot.<|endoftext|>garbage` is cut at the marker, keeping
`Serve hot.` and dropping `garbage`. -/
theorem c3_eos_truncation_witness :
    ∃ b, pyStripChars ("PServe hot.<|endoftext|>garbage".data.drop "P".length) =
      (recipe_part "<|endoftext|>" "P" "PServe hot.<|endoftext|>garbage").data ++
        "<|endoftext|>".data ++ b :=
  ((c3_eos_truncation "<|endoftext|>" "P" "PServe hot.<|endoftext|>garbage"
      (by decide)).2 (by decide)).1

theorem stepHere_of_ne_space (c : Char) (t : List Char) (h : c ≠ ' ') :
    stepHere c t = false := by
  simp [stepHere, h]

theorem hasStep_cons (c : Char) (t : List Char) :
    hasStep (c :: t) = (stepHere c t || hasStep t) := rfl

theorem reflow_cons (c : Char) (t : List Char) :
    reflow (c :: t) = if stepHere c t then brbr ++ reflow t else c :: reflow t := rfl

theorem hasStep_append_no_space (u v : List Char) (h : ∀ c ∈ u, c ≠ ' ') :
    hasStep (u ++ v) = hasStep v := by
  induction u with
  | nil => rfl
  | cons a u2 ih =>
    rw [List.cons_append, hasStep_cons,
      stepHere_of_ne_space a (u2 ++ v) (h a (by simp)), Bool.false_or]
    exact ih (fun c hc => h c (by simp [hc]))

theorem reflow_eq_self_of_not_hasStep (l : List Char) (h : hasStep l = false) :
    reflow l = l := by
  induction l with
  | nil => rfl
  | cons c t ih =>
    rw [hasStep_cons, Bool.or_eq_false_iff] at h
    rw [reflow_cons, if_neg (by simp [h.1]), ih h.2]

theorem dropDigits_head_reflow (t : List Char)
    (h : ((t.dropWhile Char.isDigit).head? = some '.') → False) :
    (((reflow t).dropWhile Char.isDigit).head? = some '.') → False := by
  induction t with
  | nil => intro hc; simp [reflow] at hc
  | cons c t2 ih =>
    by_cases hd : Char.isDigit c = true
    · have hcs : c ≠ ' ' := fun he => by rw [he] at hd; simp at hd
      rw [reflow_cons, if_neg (by simp [stepHere_of_ne_space c t2 hcs])]
      rw [List.dropWhile_cons_of_pos hd]
      rw [List.dropWhile_cons_of_pos hd] at h
      exact ih h
    · rw [List.dropWhile_cons_of_neg hd] at h
      have hcd : c ≠ '.' := by
        intro he
        exact h (by rw [he]; rfl)
      by_cases hcs : c = ' '
      · subst hcs
        rw [reflow_cons]
        by_cases hst : stepHere ' ' t2 = true
        · rw [if_pos hst]
          intro hc
          rw [show brbr ++ reflow t2 = '<' :: (['b', 'r', '>', '<', 'b', 'r', '>'] ++ reflow t2)
            from rfl] at hc
          rw [List.dropWhile_cons_of_neg (by decide)] at hc
          simp at hc
        · rw [if_neg hst]
          intro hc
          rw [List.dropWhile_cons_of_neg (by decide)] at hc
          simp at hc
      · rw [reflow_cons, if_neg (by simp [stepHere_of_ne_space c t2 hcs])]
        intro hc
        rw [List.dropWhile_cons_of_neg hd] at hc
        simp at hc
        exact hcd hc

theorem takeDigits_empty_reflow (t : List Char)
    (h : (t.takeWhile Char.isDigit).isEmpty = true) :
    ((reflow t).takeWhile Char.isDigit).isEmpty = true := by
  cases t with
  | nil => rfl
  | cons c t2 =>
    by_cases hd : Char.isDigit c = true
    · rw [List.takeWhile_cons_of_pos hd] at h
      simp at h
    · by_cases hcs : c = ' '
      · subst hcs
        rw [reflow_cons]
        by_cases hst : stepHere ' ' t2 = true
        · rw [if_pos hst]
          rw [show brbr ++ reflow t2 = '<' :: (['b', 'r', '>', '<', 'b', 'r', '>'] ++ reflow t2)
            from rfl]
          rw [List.takeWhile_cons_of_neg (by decide)]
          rfl
        · rw [if_neg hst, List.takeWhile_cons_of_neg (by decide)]
          rfl
      · rw [reflow_cons, if_neg (by simp [stepHere_of_ne_space c t2 hcs]),
          List.takeWhile_cons_of_neg hd]
        rfl

theorem stepHere_space_reflow (t : List Char) (h : stepHere ' ' t = false) :
    stepHere ' ' (reflow t) = false := by
  rw [stepHere] at h ⊢
  simp only [beq_self_eq_true, Bool.true_and, Bool.and_eq_false_iff] at h ⊢
  cases h with
  | inl h =>
    left
    simp only [Bool.not_eq_false'] at h ⊢
    exact takeDigits_empty_reflow t h
  | inr h =>
    right
    simp only [beq_eq_false_iff_ne, ne_eq] at h ⊢
    exact dropDigits_head_reflow t h

theorem hasStep_reflow (l : List Char) : hasStep (reflow l) = false := by
  induction l with
  | nil => rfl
  | cons c t ih =>
    rw [reflow_cons]
    by_cases hst : stepHere c t = true
    · rw [if_pos hst]
      rw [hasStep_append_no_space brbr (reflow t) (by decide)]
      exact ih
    · rw [if_neg hst]
      rw [hasStep_cons, ih, Bool.or_false]
      by_cases hcs : c = ' '
      · subst hcs
        exact stepHere_space_reflow t (by simpa using hst)
      · exact stepHere_of_ne_space c (reflow t) hcs

/-- C5: the step-reflow substitution is idempotent — applying it to
its own output changes nothing, because after the first pass no
space + digit-run + period pattern remains (the separators are
inserted before the digit sequence, not after). -/
theorem c5_reflow_idempotent (s : String) :
    reflow (reflow s.data) = reflow s.data ∧ hasStep (reflow s.data) = false :=
  ⟨reflow_eq_self_of_not_hasStep (reflow s.data) (hasStep_reflow s.data),
   hasStep_reflow s.data⟩

theorem takeWhile_digits_dot (ds b : List Char) (hd : ∀ c ∈ ds, Char.isDigit c = true) :
    (ds ++ '.' :: b).takeWhile Char.isDigit = ds ∧
    (ds ++ '.' :: b).dropWhile Char.isDigit = '.' :: b := by
  induction ds with
  | nil =>
    simp [List.takeWhile_cons_of_neg (by decide : ¬ Char.isDigit '.' = true),
      List.dropWhile_cons_of_neg (by decide : ¬ Char.isDigit '.' = true)]
  | cons d ds2 ih =>
    obtain ⟨h1, h2⟩ := ih (fun c hc => hd c (by simp [hc]))
    have hdd : Char.isDigit d = true := hd d (by simp)
    rw [List.cons_append, List.takeWhile_cons_of_pos hdd, List.dropWhile_cons_of_pos hdd]
    exact ⟨by rw [h1], h2⟩

theorem reflow_digits_dot (ds b : List Char) (hd : ∀ c ∈ ds, Char.isDigit c = true) :
    reflow (ds ++ '.' :: b) = ds ++ '.' :: reflow b := by
  induction ds with
  | nil =>
    rw [List.nil_append, reflow_cons,
      if_neg (by simp [stepHere_of_ne_space '.' b (by decide)])]
    rfl
  | cons d ds2 ih =>
    have hdd : Char.isDigit d = true := hd d (by simp)
    have hds : d ≠ ' ' := fun he => by rw [he] at hdd; simp at hdd
    rw [List.cons_append, reflow_cons, if_neg (by simp [stepHere_of_ne_space d _ hds]),
      ih (fun c hc => hd c (by simp [hc]))]
    rfl

theorem reflow_match (ds b : List Char) (hd : ∀ c ∈ ds, Char.isDigit c = true)
    (hne : ds ≠ []) :
    reflow (' ' :: (ds ++ '.' :: b)) = brbr ++ ds ++ '.' :: reflow b := by
  obtain ⟨h1, h2⟩ := takeWhile_digits_dot ds b hd
  rw [reflow_cons, if_pos ?_, reflow_digits_dot ds b hd, List.append_assoc]
  rw [stepHere, h1, h2]
  simp [List.isEmpty_iff, hne]

theorem dropDigits_head_space (a2 z : List Char) :
    ((a2 ++ ' ' :: z).dropWhile Char.isDigit).head? =
      ((a2 ++ [' ']).dropWhile Char.isDigit).head? := by
  induction a2 with
  | nil =>
    rw [List.nil_append, List.nil_append,
      List.dropWhile_cons_of_neg (by decide : ¬ Char.isDigit ' ' = true),
      List.dropWhile_cons_of_neg (by decide : ¬ Char.isDigit ' ' = true)]
    rfl
  | cons c a3 ih =>
    by_cases hd : Char.isDigit c = true
    · rw [List.cons_append, List.cons_append, List.dropWhile_cons_of_pos hd,
        List.dropWhile_cons_of_pos hd]
      exact ih
    · rw [List.cons_append, List.cons_append, List.dropWhile_cons_of_neg hd,
        List.dropWhile_cons_of_neg hd]
      rfl

theorem takeDigits_empty_space (a2 z : List Char) :
    ((a2 ++ ' ' :: z).takeWhile Char.isDigit).isEmpty =
      ((a2 ++ [' ']).takeWhile Char.isDigit).isEmpty := by
  cases a2 with
  | nil =>
    rw [List.nil_append, List.nil_append,
      List.takeWhile_cons_of_neg (by decide : ¬ Char.isDigit ' ' = true),
      List.takeWhile_cons_of_neg (by decide : ¬ Char.isDigit ' ' = true)]
  | cons c a3 =>
    by_cases hd : Char.isDigit c = true
    · rw [List.cons_append, List.cons_append, List.takeWhile_cons_of_pos hd,
        List.takeWhile_cons_of_pos hd]
      rfl
    · rw [List.cons_append, List.cons_append, List.takeWhile_cons_of_neg hd,
        List.takeWhile_cons_of_neg hd]

theorem stepHere_space_extend (a2 z : List Char) :
    stepHere ' ' (a2 ++ ' ' :: z) = stepHere ' ' (a2 ++ [' ']) := by
  rw [stepHere, stepHere, dropDigits_head_space a2 z, takeDigits_empty_space a2 z]

theorem reflow_append_clean (a w : List Char) (h : hasStep (a ++ [' ']) = false) :
    reflow (a ++ ' ' :: w) = a ++ reflow (' ' :: w) := by
  induction a with
  | nil => rfl
  | cons c a2 ih =>
    rw [List.cons_append, hasStep_cons, Bool.or_eq_false_iff] at h
    have hstep : stepHere c (a2 ++ ' ' :: w) = false := by
      by_cases hcs : c = ' '
      · subst hcs
        rw [stepHere_space_extend a2 w]
        exact h.1
      · exact stepHere_of_ne_space c _ hcs
    rw [List.cons_append, reflow_cons, if_neg (by simp [hstep]), ih h.2, List.cons_append]

/-- C4: wherever the pattern space + digit-run + period occurs, the
space is replaced by the two line breaks `<br><br>` placed before the
digits and period (shown here for the occurrence after any clean
prefix `a`; by induction over the scan this covers every occurrence),
the transform applies uniformly to any such occurrence including
non-step numeric text like ` 12.5`, and the final result is trimmed of
surrounding whitespace. -/
theorem c4_reflow_replacement :
    (∀ a ds b : List Char, (∀ c ∈ ds, Char.isDigit c = true) → ds ≠ [] →
      hasStep (a ++ [' ']) = false →
      reflow (a ++ ' ' :: (ds ++ '.' :: b)) = a ++ (brbr ++ (ds ++ ('.' :: reflow b)))) ∧
    formatted_recipe " 1. Boil water. 2. Add pasta." =
      "<br><br>1. Boil water.<br><br>2. Add pasta." ∧
    formatted_recipe "Preheat to 350. Use 12.5 grams." =
      "Preheat to<br><br>350. Use<br><br>12.5 grams." ∧
    formatted_recipe " 1. Mix. " = "<br><br>1. Mix." := by
  refine ⟨?_, by decide, by decide, by decide⟩
  intro a ds b hd hne h
  rw [reflow_append_clean a (ds ++ '.' :: b) h, reflow_match ds b hd hne]
  simp [List.append_assoc]

/-- C4 witness: the replacement applied after the clean prefix `Stir`,
on the non-step numeric text ` 12.5 g`. -/
theorem c4_reflow_replacement_witness :
    reflow ("Stir".data ++ ' ' :: (['1', '2'] ++ '.' :: "5 g".data)) =
      "Stir".data ++ (brbr ++ (['1', '2'] ++ ('.' :: reflow "5 g".data))) :=
  c4_reflow_replacement.1 "Stir".data ['1', '2'] "5 g".data (by decide) (by decide)
    (by decide)
